import Mathlib

/-!
Shallow embedding of the cry-data-analysis data-preparation scripts.

The embedded code comes from:
  scripts/add_region_district_data.py   (aggregation pass: byRegion, byDistrict,
      regionYearData, districtYearData, regionDistrictMap; merge-on-write)
  scripts/analyze_protection_risk.py    (risk scorers and get_risk_level)
  scripts/fix_json_nan.py               (regex-based NaN/Infinity repair)

Python scalar values are modelled by `Value` (string, integer, or None);
a record is an association list from field names to values, mirroring a
JSON object / DataFrame row.  Python dict.get with a default is `getD`.
-/

namespace CryData

/-- A Python scalar value as it appears in the JSON records: a string,
an integer, or None. -/
inductive Value where
  | str (s : String)
  | int (n : Int)
  | vnone
deriving DecidableEq, Repr

/-- A record: mapping from field name to scalar value (association list,
first binding wins, as in a JSON object). -/
abbrev Record := List (String × Value)

/-- Lookup of a field in a record: Python `record[k]` when present. -/
def Record.get? (r : Record) (k : String) : Option Value :=
  (r.find? (fun p => p.1 == k)).map (fun p => p.2)

/-- Python `record.get(k, d)`: the stored value when the key is present
(even when it is None), the default otherwise. -/
def Record.getD (r : Record) (k : String) (d : Value) : Value :=
  (r.get? k).getD d

/-- Python `str(value)` on the scalar values we model. -/
def pyStr : Value → String
  | .str s => s
  | .int n => toString n
  | .vnone => "None"

/-- Python `s.lower()` restricted to the ASCII data these scripts see. -/
def pyLower (s : String) : String :=
  ⟨s.data.map Char.toLower⟩

/-- Python `s.strip()`: drop leading and trailing whitespace. -/
def pyStrip (s : String) : String :=
  ⟨((s.data.dropWhile Char.isWhitespace).reverse.dropWhile Char.isWhitespace).reverse⟩

/-- Python `needle in haystack` on strings: substring containment. -/
def pyIn (needle haystack : String) : Bool :=
  haystack.toList.tails.any (fun t => needle.toList.isPrefixOf t)

/-- `safe_str` from add_region_district_data.py: None maps to the default,
otherwise str(value).strip(), with a blank result replaced by the default. -/
def safe_str (value : Value) (default : String := "Unknown") : String :=
  match value with
  | .vnone => default
  | v =>
      let s := pyStrip (pyStr v)
      if s = "" then default else s

/-- `safe_lower` from add_region_district_data.py: None maps to the empty
string, otherwise str(value).lower().  Note: no trimming is performed. -/
def safe_lower (value : Value) : String :=
  match value with
  | .vnone => ""
  | v => pyLower (pyStr v)

/-- Line 68: region = safe_str(record.get('Region Name', record.get('Region', 'Unknown'))). -/
def regionOf (r : Record) : String :=
  safe_str (r.getD "Region Name" (r.getD "Region" (.str "Unknown")))

/-- Line 69: district = safe_str(record.get('District Name', record.get('District', 'Unknown'))). -/
def districtOf (r : Record) : String :=
  safe_str (r.getD "District Name" (r.getD "District" (.str "Unknown")))

/-- Line 70: year = str(record.get('Year', record.get('Periodicity', 'Unknown'))). -/
def yearOf (r : Record) : String :=
  pyStr (r.getD "Year" (r.getD "Periodicity" (.str "Unknown")))

/-- Line 71: gender = safe_lower(record.get('Gender', record.get('Gender_x', ''))). -/
def genderOf (r : Record) : String :=
  safe_lower (r.getD "Gender" (r.getD "Gender_x" (.str "")))

/-- Line 73: is_male = gender in ['male', 'm', 'boy']. -/
def is_male (gender : String) : Bool :=
  ["male", "m", "boy"].contains gender

/-- Line 74: is_female = gender in ['female', 'f', 'girl']. -/
def is_female (gender : String) : Bool :=
  ["female", "f", "girl"].contains gender

/-- The per-group counter dict: {'count': 0, 'boys': 0, 'girls': 0}. -/
structure Counter where
  count : Nat
  boys : Nat
  girls : Nat
deriving DecidableEq, Repr

/-- The default-factory value of the counter defaultdicts. -/
def Counter.zero : Counter := ⟨0, 0, 0⟩

/-- One `counts['count'] += 1; if is_male: boys += 1 elif is_female: girls += 1`
block applied to a counter. -/
def Counter.bump (c : Counter) (im isf : Bool) : Counter :=
  { count := c.count + 1
    boys := if im then c.boys + 1 else c.boys
    girls := if im then c.girls else if isf then c.girls + 1 else c.girls }

/-- The mutable aggregation state of the processing loop.  The Python
defaultdicts are modelled as total functions returning the default-factory
value on unseen keys; the key sets that `dict(...)` would report are
recovered separately from the record list. -/
structure AggState where
  byRegion : String → Counter
  byDistrict : String → Counter
  regionYearData : String → String → Counter
  districtYearData : String → String → Counter
  regionDistrictMap : String → Finset String

/-- The state before the processing loop: all tables empty. -/
def AggState.init : AggState :=
  { byRegion := fun _ => Counter.zero
    byDistrict := fun _ => Counter.zero
    regionYearData := fun _ _ => Counter.zero
    districtYearData := fun _ _ => Counter.zero
    regionDistrictMap := fun _ => ∅ }

/-- The body of the processing loop (lines 68-106 of
add_region_district_data.py) for a single record. -/
def processRecord (st : AggState) (r : Record) : AggState :=
  let region := regionOf r
  let district := districtOf r
  let year := yearOf r
  let gender := genderOf r
  let im := is_male gender
  let isf := is_female gender
  { byRegion := Function.update st.byRegion region ((st.byRegion region).bump im isf)
    byDistrict := Function.update st.byDistrict district ((st.byDistrict district).bump im isf)
    regionYearData := Function.update st.regionYearData region
      (Function.update (st.regionYearData region) year
        ((st.regionYearData region year).bump im isf))
    districtYearData := Function.update st.districtYearData district
      (Function.update (st.districtYearData district) year
        ((st.districtYearData district year).bump im isf))
    regionDistrictMap :=
      if region ≠ "Unknown" ∧ district ≠ "Unknown" then
        Function.update st.regionDistrictMap region
          (insert district (st.regionDistrictMap region))
      else st.regionDistrictMap }

/-- The whole processing loop over the record sequence. -/
def aggregate (records : List Record) : AggState :=
  records.foldl processRecord AggState.init

/-- The key set of `dict(byRegion)` after the loop: every record touched
exactly its own region key. -/
def regionKeys (records : List Record) : Finset String :=
  (records.map regionOf).toFinset

/-- The key set of `dict(byDistrict)` after the loop. -/
def districtKeys (records : List Record) : Finset String :=
  (records.map districtOf).toFinset

/-- The key set of `regionYearData[region]` after the loop: the years seen
together with that region. -/
def regionYearKeys (records : List Record) (region : String) : Finset String :=
  ((records.filter (fun r => regionOf r == region)).map yearOf).toFinset

/-- The key set of `districtYearData[district]` after the loop. -/
def districtYearKeys (records : List Record) (district : String) : Finset String :=
  ((records.filter (fun r => districtOf r == district)).map yearOf).toFinset

/-- The per-record predicates counted by the tables. -/
def inRegion (k : String) (r : Record) : Bool := regionOf r == k

def inDistrict (k : String) (r : Record) : Bool := districtOf r == k

def maleRec (r : Record) : Bool := is_male (genderOf r)

def femaleRec (r : Record) : Bool := !is_male (genderOf r) && is_female (genderOf r)

/-- The per-record predicate for a (dimension, year) cell. -/
def inRegionYear (k y : String) (r : Record) : Bool :=
  regionOf r == k && yearOf r == y

def inDistrictYear (k y : String) (r : Record) : Bool :=
  districtOf r == k && yearOf r == y

/-- A record is gender-classified when the normalized gender is
male-equivalent or female-equivalent. -/
def classifiedRec (r : Record) : Bool :=
  is_male (genderOf r) || is_female (genderOf r)

/-- Serialization of a district set, line 124:
`{k: sorted(list(v)) for k, v in regionDistrictMap.items()}`. -/
def serializeDistricts (s : Finset String) : List String :=
  s.sort (· ≤ ·)

/-! ### Risk scorers (analyze_protection_risk.py) -/

/-- `str(row.get(k, '')).lower()`, the field-normalization used throughout
the three risk scorers. -/
def lowerField (row : Record) (k : String) : String :=
  pyLower (pyStr (row.getD k (.str "")))

/-- One if/elif chain of a scorer: the first branch whose condition holds
contributes its points and appends its label; later branches are skipped.
A plain `if cond: score += p; factors.append(lb)` block is a one-branch
chain. -/
def fireGroup (acc : Int × List String) : List (Bool × Int × String) → Int × List String
  | [] => acc
  | (c, p, lb) :: rest => if c then (acc.1 + p, acc.2 ++ [lb]) else fireGroup acc rest

/-- Run the if/elif chains of a scorer in order, starting from
`score = 0; factors = []`. -/
def runRules (groups : List (List (Bool × Int × String))) : Int × List String :=
  groups.foldl fireGroup (0, [])

/-- `calc_child_marriage_risk` (lines 48-109): sequential scoring blocks,
final score capped by `min(score, 100)`. -/
def calc_child_marriage_risk (row : Record) : Int × List String :=
  let enrollment := lowerField row "Enrollment status"
  let single_parent := lowerField row "Whether the HH is headed by a single parent"
  let grandparent := lowerField row "Whether the HH is headed by grand parents"
  let child_headed := lowerField row "Whether headed by children (18 years and below)"
  let earner_ill :=
    lowerField row "Whether the primary bread-earner of the HH is terminally/seriously ill"
  let migrated := lowerField row "Child migrated in the last 3 months?"
  let hh_migrates := lowerField row "Whether Household migrates every year"
  let missing := lowerField row "Is any child missing?"
  let ration := lowerField row "Type of Ration card"
  let acc := runRules
    [[(pyIn "drop out" enrollment || pyIn "never enrolled" enrollment, 20, "Out of school")],
     [(single_parent == "yes" || grandparent == "yes" || child_headed == "yes", 15,
        "Orphan/Single parent")],
     [(earner_ill == "yes", 5, "Primary earner ill")],
     [(pyIn "yes" migrated || hh_migrates == "yes", 5, "Migration/Risk area")],
     [(missing == "yes", 10, "Missing children in HH")],
     [(pyIn "below poverty" ration || pyIn "no ration" ration, 10, "BPL/Economic hardship")]]
  (min acc.1 100, acc.2)

/-- `calc_child_labour_risk` (lines 112-175).  The nested
"outside home alone" bonus fires only when the economic-activity block
fired, hence its conjoined condition. -/
def calc_child_labour_risk (row : Record) : Int × List String :=
  let enrollment := lowerField row "Enrollment status"
  let economic := lowerField row
    "Is the child involved in any Economic activities? (with or without wage/ monetary compensation for the child)"
  let bonded := lowerField row "Bonded labour involvement"
  let single_parent := lowerField row "Whether the HH is headed by a single parent"
  let grandparent := lowerField row "Whether the HH is headed by grand parents"
  let child_headed := lowerField row "Whether headed by children (18 years and below)"
  let ration := lowerField row "Type of Ration card"
  let earner_ill :=
    lowerField row "Whether the primary bread-earner of the HH is terminally/seriously ill"
  let migrated := lowerField row "Child migrated in the last 3 months?"
  let hh_migrates := lowerField row "Whether Household migrates every year"
  let missing := lowerField row "Is any child missing?"
  let acc := runRules
    [[(pyIn "drop out" enrollment || pyIn "never enrolled" enrollment, 15, "Out of school")],
     [(pyIn "yes" economic, 15, "Economic activity")],
     [(pyIn "yes" economic && pyIn "outside home alone" economic, 10, "Works outside alone")],
     [(bonded == "yes", 20, "Bonded labor")],
     [(single_parent == "yes" || grandparent == "yes" || child_headed == "yes", 10,
        "Orphan/Single parent")],
     [(pyIn "below poverty" ration || pyIn "no ration" ration || earner_ill == "yes", 10,
        "Economic hardship")],
     [(pyIn "yes" migrated || hh_migrates == "yes", 10, "Migration/Risk area")],
     [(missing == "yes", 10, "Protection issues")]]
  (min acc.1 100, acc.2)

/-- `calc_child_trafficking_risk` (lines 178-240), with its two if/elif
chains (out-of-school × economic activity, and migrant family). -/
def calc_child_trafficking_risk (row : Record) : Int × List String :=
  let enrollment := lowerField row "Enrollment status"
  let economic := lowerField row
    "Is the child involved in any Economic activities? (with or without wage/ monetary compensation for the child)"
  let is_out_of_school := pyIn "drop out" enrollment || pyIn "never enrolled" enrollment
  let is_economically_active := pyIn "yes" economic
  let migrated := lowerField row "Child migrated in the last 3 months?"
  let hh_migrates := lowerField row "Whether Household migrates every year"
  let single_parent := lowerField row "Whether the HH is headed by a single parent"
  let grandparent := lowerField row "Whether the HH is headed by grand parents"
  let child_headed := lowerField row "Whether headed by children (18 years and below)"
  let ration := lowerField row "Type of Ration card"
  let earner_ill :=
    lowerField row "Whether the primary bread-earner of the HH is terminally/seriously ill"
  let missing := lowerField row "Is any child missing?"
  let acc := runRules
    [[(is_out_of_school && is_economically_active, 25, "Out of school + Economic activity"),
      (is_out_of_school, 15, "Out of school"),
      (is_economically_active, 10, "Economic activity")],
     [(hh_migrates == "yes", 20, "Migrant family"),
      (pyIn "yes" migrated, 15, "Child migrated")],
     [(single_parent == "yes" || grandparent == "yes" || child_headed == "yes", 20,
        "Orphan/Single parent")],
     [(pyIn "below poverty" ration || pyIn "no ration" ration || earner_ill == "yes", 10,
        "Economic hardship")],
     [(pyIn "agent" migrated || pyIn "contractor" migrated || pyIn "labour" migrated, 20,
        "Trafficking risk (agent migration)")],
     [(missing == "yes", 15, "Missing children in HH")]]
  (min acc.1 100, acc.2)

/-- `get_risk_level` (lines 243-251). -/
def get_risk_level (score : Int) : String :=
  if score ≥ 50 then "High"
  else if score ≥ 25 then "Medium"
  else if score > 0 then "Low"
  else "Minimal"

/-- The spec's claimed gender normalization, modelled from the spec's
words ("lowercase, trim") for comparison against the code's `safe_lower`,
which does not trim. -/
def specGenderNormalize (v : Value) : String :=
  pyStrip (pyLower (pyStr v))

/-! ### Merge-on-write (lines 114-129 of add_region_district_data.py) -/

/-- A persisted JSON document's top level: keys to values of some type. -/
def setKey {α : Type} (doc : String → Option α) (k : String) (v : α) :
    String → Option α :=
  Function.update doc k (some v)

/-- The five freshly computed aggregates assigned on lines 120-124. -/
structure AggOutputs (α : Type) where
  byRegion : α
  byDistrict : α
  regionYearData : α
  districtYearData : α
  regionDistrictMap : α

/-- The top-level keys the aggregation step overwrites. -/
def aggregateKeys : List String :=
  ["byRegion", "byDistrict", "regionYearData", "districtYearData", "regionDistrictMap"]

/-- Lines 120-124: the five dict assignments on `summary_data`. -/
def applyAggregates {α : Type} (doc : String → Option α) (out : AggOutputs α) :
    String → Option α :=
  setKey (setKey (setKey (setKey (setKey doc
    "byRegion" out.byRegion)
    "byDistrict" out.byDistrict)
    "regionYearData" out.regionYearData)
    "districtYearData" out.districtYearData)
    "regionDistrictMap" out.regionDistrictMap

/-- Lines 114-129: `json.load` of the existing document either succeeds or
raises (absent or unparsable file); there is no handler, so on failure the
script aborts before `json.dump` and no document is produced.  On success
the aggregates are merged in and the result is what gets written. -/
def updateSummaryData {α : Type} (loaded : Except String (String → Option α))
    (out : AggOutputs α) : Except String (String → Option α) :=
  match loaded with
  | .error e => .error e
  | .ok doc => .ok (applyAggregates doc out)

/-! ### NaN repair (fix_json_nan.py) -/

/-- A regex word character, `\w` = [A-Za-z0-9_]. -/
def isWordChar (c : Char) : Bool :=
  c.isAlphanum || c == '_'

/-- Python's `\b` between the previous character (none at start of text)
and the current one: a word/non-word transition. -/
def boundaryBefore (prev : Option Char) (c : Char) : Bool :=
  match prev with
  | none => isWordChar c
  | some p => isWordChar p != isWordChar c

/-- Python's `\b` after the last matched character. -/
def boundaryAfter (lastTok : Char) : List Char → Bool
  | [] => isWordChar lastTok
  | c :: _ => isWordChar lastTok != isWordChar c

/-- Scanner for `re.sub(r'\btok\b', repl, text)` with a non-empty literal
token `t :: ts`: scan left to right; at a match position (token is a
prefix and both boundaries hold) emit the replacement and consume the
token (`skip` counts token characters still to consume, during which no
new match may start, as re.sub matches are non-overlapping); otherwise
emit the character and advance.  `prev` is the previously consumed
character of the original text. -/
def reSubGo (t : Char) (ts repl : List Char) :
    Nat → Option Char → List Char → List Char
  | _, _, [] => []
  | skip + 1, _, c :: rest => reSubGo t ts repl skip (some c) rest
  | 0, prev, c :: rest =>
      if (t :: ts).isPrefixOf (c :: rest) && boundaryBefore prev c
          && boundaryAfter ((t :: ts).getLast (List.cons_ne_nil t ts)) (rest.drop ts.length) then
        repl ++ reSubGo t ts repl ts.length (some c) rest
      else
        c :: reSubGo t ts repl 0 (some c) rest

/-- `re.sub(r'\btok\b', repl, s)` for a literal token. -/
def reSubWord (tok repl s : String) : String :=
  match tok.data with
  | [] => s
  | t :: ts => ⟨reSubGo t ts repl.data 0 none s.data⟩

/-- The three substitutions of `fix_json_file` (lines 17-21), applied in
source order: NaN, then Infinity, then -Infinity. -/
def fix_content (content : String) : String :=
  reSubWord "-Infinity" "null"
    (reSubWord "Infinity" "null"
      (reSubWord "NaN" "null" content))

/-! ### Pointwise characterization of the aggregation pass -/

lemma processRecord_byRegion (st : AggState) (r : Record) (k : String) :
    (processRecord st r).byRegion k =
      if k = regionOf r then
        (st.byRegion k).bump (is_male (genderOf r)) (is_female (genderOf r))
      else st.byRegion k := by
  unfold processRecord
  simp only [Function.update_apply]
  rcases eq_or_ne k (regionOf r) with h | h
  · subst h; simp
  · simp [h]

lemma processRecord_byDistrict (st : AggState) (r : Record) (k : String) :
    (processRecord st r).byDistrict k =
      if k = districtOf r then
        (st.byDistrict k).bump (is_male (genderOf r)) (is_female (genderOf r))
      else st.byDistrict k := by
  unfold processRecord
  simp only [Function.update_apply]
  rcases eq_or_ne k (districtOf r) with h | h
  · subst h; simp
  · simp [h]

lemma processRecord_regionYearData (st : AggState) (r : Record) (k y : String) :
    (processRecord st r).regionYearData k y =
      if k = regionOf r ∧ y = yearOf r then
        (st.regionYearData k y).bump (is_male (genderOf r)) (is_female (genderOf r))
      else st.regionYearData k y := by
  unfold processRecord
  simp only [Function.update_apply]
  rcases eq_or_ne k (regionOf r) with hk | hk
  · subst hk
    rcases eq_or_ne y (yearOf r) with hy | hy
    · subst hy; simp
    · simp [hy]
  · simp [hk]

lemma processRecord_districtYearData (st : AggState) (r : Record) (k y : String) :
    (processRecord st r).districtYearData k y =
      if k = districtOf r ∧ y = yearOf r then
        (st.districtYearData k y).bump (is_male (genderOf r)) (is_female (genderOf r))
      else st.districtYearData k y := by
  unfold processRecord
  simp only [Function.update_apply]
  rcases eq_or_ne k (districtOf r) with hk | hk
  · subst hk
    rcases eq_or_ne y (yearOf r) with hy | hy
    · subst hy; simp
    · simp [hy]
  · simp [hk]

lemma processRecord_relMap_mem (st : AggState) (r : Record) (k d : String) :
    d ∈ (processRecord st r).regionDistrictMap k ↔
      d ∈ st.regionDistrictMap k ∨
        (regionOf r = k ∧ districtOf r = d ∧
          regionOf r ≠ "Unknown" ∧ districtOf r ≠ "Unknown") := by
  unfold processRecord
  simp only
  split
  · next hcond =>
    rw [Function.update_apply]
    rcases eq_or_ne k (regionOf r) with hk | hk
    · subst hk
      rw [if_pos rfl, Finset.mem_insert]
      constructor
      · rintro (hd | hd)
        · exact Or.inr ⟨rfl, hd.symm, hcond.1, hcond.2⟩
        · exact Or.inl hd
      · rintro (hd | ⟨_, hd, _, _⟩)
        · exact Or.inr hd
        · exact Or.inl hd.symm
    · rw [if_neg hk]
      constructor
      · exact Or.inl
      · rintro (hd | ⟨hr, _, _, _⟩)
        · exact hd
        · exact absurd hr.symm hk
  · next hcond =>
    constructor
    · exact Or.inl
    · rintro (hd | ⟨hr, hd, hru, hdu⟩)
      · exact hd
      · exact absurd ⟨hru, hdu⟩ hcond

lemma foldl_byRegion (l : List Record) (st : AggState) (k : String) :
    (l.foldl processRecord st).byRegion k =
      { count := (st.byRegion k).count + l.countP (inRegion k)
        boys := (st.byRegion k).boys + l.countP (fun r => inRegion k r && maleRec r)
        girls := (st.byRegion k).girls + l.countP (fun r => inRegion k r && femaleRec r) } := by
  induction l generalizing st with
  | nil => simp
  | cons r t ih =>
    rw [List.foldl_cons, ih, processRecord_byRegion]
    rcases eq_or_ne k (regionOf r) with h | h
    · subst h
      rw [if_pos rfl]
      simp only [Counter.bump, List.countP_cons, Counter.mk.injEq, inRegion, maleRec, femaleRec,
        beq_self_eq_true, Bool.true_and, Bool.and_true, if_true]
      refine ⟨by omega, ?_, ?_⟩ <;>
        rcases hm : is_male (genderOf r) <;>
        rcases hf : is_female (genderOf r) <;>
        simp [hm, hf] <;> omega
    · have hb : (regionOf r == k) = false := by
        simp only [beq_eq_false_iff_ne, ne_eq]
        exact fun hh => h hh.symm
      rw [if_neg h]
      simp [List.countP_cons, inRegion, hb]

lemma foldl_byDistrict (l : List Record) (st : AggState) (k : String) :
    (l.foldl processRecord st).byDistrict k =
      { count := (st.byDistrict k).count + l.countP (inDistrict k)
        boys := (st.byDistrict k).boys + l.countP (fun r => inDistrict k r && maleRec r)
        girls := (st.byDistrict k).girls + l.countP (fun r => inDistrict k r && femaleRec r) } := by
  induction l generalizing st with
  | nil => simp
  | cons r t ih =>
    rw [List.foldl_cons, ih, processRecord_byDistrict]
    rcases eq_or_ne k (districtOf r) with h | h
    · subst h
      rw [if_pos rfl]
      simp only [Counter.bump, List.countP_cons, Counter.mk.injEq, inDistrict, maleRec, femaleRec,
        beq_self_eq_true, Bool.true_and, Bool.and_true, if_true]
      refine ⟨by omega, ?_, ?_⟩ <;>
        rcases hm : is_male (genderOf r) <;>
        rcases hf : is_female (genderOf r) <;>
        simp [hm, hf] <;> omega
    · have hb : (districtOf r == k) = false := by
        simp only [beq_eq_false_iff_ne, ne_eq]
        exact fun hh => h hh.symm
      rw [if_neg h]
      simp [List.countP_cons, inDistrict, hb]

lemma foldl_regionYearData (l : List Record) (st : AggState) (k y : String) :
    (l.foldl processRecord st).regionYearData k y =
      { count := (st.regionYearData k y).count + l.countP (inRegionYear k y)
        boys := (st.regionYearData k y).boys + l.countP (fun r => inRegionYear k y r && maleRec r)
        girls := (st.regionYearData k y).girls +
          l.countP (fun r => inRegionYear k y r && femaleRec r) } := by
  induction l generalizing st with
  | nil => simp
  | cons r t ih =>
    rw [List.foldl_cons, ih, processRecord_regionYearData]
    by_cases h : k = regionOf r ∧ y = yearOf r
    · obtain ⟨hk, hy⟩ := h
      subst hk; subst hy
      rw [if_pos ⟨rfl, rfl⟩]
      simp only [Counter.bump, List.countP_cons, Counter.mk.injEq, inRegionYear, maleRec,
        femaleRec, beq_self_eq_true, Bool.true_and, Bool.and_true, if_true]
      refine ⟨by omega, ?_, ?_⟩ <;>
        rcases hm : is_male (genderOf r) <;>
        rcases hf : is_female (genderOf r) <;>
        simp [hm, hf] <;> omega
    · have hb : inRegionYear k y r = false := by
        unfold inRegionYear
        rcases not_and_or.mp h with hk | hy
        · have hx : (regionOf r == k) = false := by
            simp only [beq_eq_false_iff_ne, ne_eq]
            exact fun hh => hk hh.symm
          simp [hx]
        · have hx : (yearOf r == y) = false := by
            simp only [beq_eq_false_iff_ne, ne_eq]
            exact fun hh => hy hh.symm
          simp [hx]
      rw [if_neg h]
      simp [List.countP_cons, hb]

lemma foldl_districtYearData (l : List Record) (st : AggState) (k y : String) :
    (l.foldl processRecord st).districtYearData k y =
      { count := (st.districtYearData k y).count + l.countP (inDistrictYear k y)
        boys := (st.districtYearData k y).boys +
          l.countP (fun r => inDistrictYear k y r && maleRec r)
        girls := (st.districtYearData k y).girls +
          l.countP (fun r => inDistrictYear k y r && femaleRec r) } := by
  induction l generalizing st with
  | nil => simp
  | cons r t ih =>
    rw [List.foldl_cons, ih, processRecord_districtYearData]
    by_cases h : k = districtOf r ∧ y = yearOf r
    · obtain ⟨hk, hy⟩ := h
      subst hk; subst hy
      rw [if_pos ⟨rfl, rfl⟩]
      simp only [Counter.bump, List.countP_cons, Counter.mk.injEq, inDistrictYear, maleRec,
        femaleRec, beq_self_eq_true, Bool.true_and, Bool.and_true, if_true]
      refine ⟨by omega, ?_, ?_⟩ <;>
        rcases hm : is_male (genderOf r) <;>
        rcases hf : is_female (genderOf r) <;>
        simp [hm, hf] <;> omega
    · have hb : inDistrictYear k y r = false := by
        unfold inDistrictYear
        rcases not_and_or.mp h with hk | hy
        · have hx : (districtOf r == k) = false := by
            simp only [beq_eq_false_iff_ne, ne_eq]
            exact fun hh => hk hh.symm
          simp [hx]
        · have hx : (yearOf r == y) = false := by
            simp only [beq_eq_false_iff_ne, ne_eq]
            exact fun hh => hy hh.symm
          simp [hx]
      rw [if_neg h]
      simp [List.countP_cons, hb]

lemma foldl_relMap_mem (l : List Record) (st : AggState) (k d : String) :
    d ∈ (l.foldl processRecord st).regionDistrictMap k ↔
      d ∈ st.regionDistrictMap k ∨
        ∃ r ∈ l, regionOf r = k ∧ districtOf r = d ∧
          regionOf r ≠ "Unknown" ∧ districtOf r ≠ "Unknown" := by
  induction l generalizing st with
  | nil => simp
  | cons r t ih =>
    rw [List.foldl_cons, ih, processRecord_relMap_mem]
    constructor
    · rintro ((hd | hr) | ⟨r', hr', hprop⟩)
      · exact Or.inl hd
      · exact Or.inr ⟨r, List.mem_cons_self .., hr⟩
      · exact Or.inr ⟨r', List.mem_cons_of_mem _ hr', hprop⟩
    · rintro (hd | ⟨r', hr', hprop⟩)
      · exact Or.inl (Or.inl hd)
      · rcases List.mem_cons.mp hr' with h | h
        · subst h; exact Or.inl (Or.inr hprop)
        · exact Or.inr ⟨r', h, hprop⟩

/-! ### Counting helpers -/

/-- Summing, over a key set containing every key reached by a `q`-record,
the number of `q`-records having that key, recovers the number of
`q`-records: each record lands in exactly one key group. -/
lemma sum_countP_key {α : Type} (l : List α) (f : α → String) (q : α → Bool)
    (Y : Finset String) (hY : ∀ a ∈ l, q a = true → f a ∈ Y) :
    (∑ y ∈ Y, l.countP (fun a => q a && (f a == y))) = l.countP q := by
  induction l with
  | nil => simp
  | cons a t ih =>
    have hYt : ∀ b ∈ t, q b = true → f b ∈ Y := fun b hb => hY b (List.mem_cons_of_mem _ hb)
    simp only [List.countP_cons]
    rw [Finset.sum_add_distrib, ih hYt]
    rcases hq : q a
    · simp
    · simp only [Bool.true_and]
      have hconv : ∀ y ∈ Y, (if (f a == y) = true then 1 else 0)
          = if f a = y then 1 else 0 := by
        intro y _
        simp [beq_iff_eq]
      rw [Finset.sum_congr rfl hconv, Finset.sum_ite_eq]
      simp [hY a (List.mem_cons_self ..) hq]

lemma countP_and_le {α : Type} (l : List α) (g c : α → Bool) :
    l.countP (fun a => g a && c a) ≤ l.countP g :=
  List.countP_mono_left (fun a _ h => by
    rcases Bool.and_eq_true .. ▸ h with ⟨h1, _⟩; exact h1)

lemma countP_and_eq_iff {α : Type} (l : List α) (g c : α → Bool) :
    l.countP (fun a => g a && c a) = l.countP g ↔
      ∀ a ∈ l, g a = true → c a = true := by
  induction l with
  | nil => simp
  | cons a t ih =>
    have hle := countP_and_le t g c
    simp only [List.countP_cons, List.forall_mem_cons]
    rcases hg : g a <;> rcases hc : c a <;> simp [hg, hc, ← ih] <;> omega

/-- Boys and girls are counted disjointly: a record adds to boys exactly
when male-equivalent, to girls exactly when female-equivalent and not
male-equivalent, so the two group counts add up to the classified count. -/
lemma countP_male_add_female (l : List Record) (g : Record → Bool) :
    l.countP (fun r => g r && maleRec r) + l.countP (fun r => g r && femaleRec r)
      = l.countP (fun r => g r && classifiedRec r) := by
  induction l with
  | nil => simp
  | cons a t ih =>
    simp only [List.countP_cons]
    rw [← ih]
    rcases hg : g a <;>
      rcases hm : is_male (genderOf a) <;>
      rcases hf : is_female (genderOf a) <;>
      simp [maleRec, femaleRec, classifiedRec, hg, hm, hf] <;> omega

/-- Combined boys/girls invariant for a group selected by a Bool predicate
`g` whose propositional meaning is `P`. -/
lemma counter_invariant (l : List Record) (g : Record → Bool) (P : Record → Prop)
    (hgP : ∀ r, g r = true ↔ P r) :
    l.countP (fun r => g r && maleRec r) + l.countP (fun r => g r && femaleRec r)
        ≤ l.countP g
    ∧ (l.countP (fun r => g r && maleRec r) + l.countP (fun r => g r && femaleRec r)
          = l.countP g
        ↔ ∀ r ∈ l, P r →
            (is_male (genderOf r) = true ∨ is_female (genderOf r) = true)) := by
  constructor
  · rw [countP_male_add_female]
    exact countP_and_le l g classifiedRec
  · rw [countP_male_add_female]
    refine (countP_and_eq_iff l g classifiedRec).trans ?_
    constructor
    · intro h r hr hP
      have hc := h r hr ((hgP r).mpr hP)
      simpa [classifiedRec, Bool.or_eq_true] using hc
    · intro h r hr hg
      rcases h r hr ((hgP r).mp hg) with hm | hf
      · simp [classifiedRec, hm]
      · simp [classifiedRec, hf]

lemma sum_counts_eq_length (l : List Record) (f : Record → String)
    (table : String → Counter)
    (htable : ∀ k, (table k).count = l.countP (fun r => f r == k)) :
    (∑ k ∈ (l.map f).toFinset, (table k).count) = l.length := by
  have habs : ∀ a ∈ l, (fun _ : Record => true) a = true → f a ∈ (l.map f).toFinset := by
    intro a ha _
    exact List.mem_toFinset.mpr (List.mem_map_of_mem f ha)
  have hsum := sum_countP_key l f (fun _ => true) ((l.map f).toFinset) habs
  simp only [Bool.true_and, List.countP_true] at hsum
  calc (∑ k ∈ (l.map f).toFinset, (table k).count)
      = ∑ k ∈ (l.map f).toFinset, l.countP (fun r => f r == k) :=
        Finset.sum_congr rfl (fun k _ => htable k)
    _ = l.length := hsum

/-- Claim C2: after the aggregation pass, the counts in the byRegion table
sum to the number of records processed, and likewise for byDistrict: every
record contributes to exactly one group per dimension, with absent or blank
region/district values mapped to the sentinel "Unknown". -/
theorem byRegion_byDistrict_counts_partition_records (l : List Record) :
    (∑ k ∈ regionKeys l, ((aggregate l).byRegion k).count) = l.length
    ∧ (∑ k ∈ districtKeys l, ((aggregate l).byDistrict k).count) = l.length
    ∧ (∀ r : Record, r.get? "Region Name" = none → r.get? "Region" = none →
        regionOf r = "Unknown")
    ∧ (∀ r : Record, r.get? "District Name" = none → r.get? "District" = none →
        districtOf r = "Unknown")
    ∧ (∀ s : String, pyStrip s = "" → safe_str (Value.str s) = "Unknown")
    ∧ safe_str Value.vnone = "Unknown" := by
  have htrim : pyStrip "Unknown" = "Unknown" := by decide
  refine ⟨?_, ?_, ?_, ?_, ?_, rfl⟩
  · refine sum_counts_eq_length l regionOf _ (fun k => ?_)
    rw [aggregate, foldl_byRegion]
    simp only [AggState.init, Counter.zero, Nat.zero_add]
    exact List.countP_congr (fun r _ => by simp [inRegion])
  · refine sum_counts_eq_length l districtOf _ (fun k => ?_)
    rw [aggregate, foldl_byDistrict]
    simp only [AggState.init, Counter.zero, Nat.zero_add]
    exact List.countP_congr (fun r _ => by simp [inDistrict])
  · intro r h1 h2
    simp [regionOf, Record.getD, h1, h2, safe_str, pyStr, htrim]
  · intro r h1 h2
    simp [districtOf, Record.getD, h1, h2, safe_str, pyStr, htrim]
  · intro s hs
    simp [safe_str, pyStr, hs]

/-- Witness for claim C2 at a concrete three-record input. -/
theorem byRegion_byDistrict_counts_partition_records_witness :
    (∑ k ∈ regionKeys
        [[("Region", Value.str "North"), ("Gender", Value.str "Male")],
         [("Region", Value.str "North"), ("Gender", Value.str "female")],
         [("Region", Value.str "South"), ("Gender", Value.str "boy")]],
      ((aggregate
        [[("Region", Value.str "North"), ("Gender", Value.str "Male")],
         [("Region", Value.str "North"), ("Gender", Value.str "female")],
         [("Region", Value.str "South"), ("Gender", Value.str "boy")]]).byRegion k).count) = 3
    ∧ regionOf [("Gender", Value.str "Male")] = "Unknown" := by
  constructor
  · exact (byRegion_byDistrict_counts_partition_records _).1
  · exact (byRegion_byDistrict_counts_partition_records []).2.2.1
      [("Gender", Value.str "Male")] rfl rfl

/-- Claim C3: in every group of every table, boys + girls never exceeds
count, with equality exactly when every record counted in the group has a
male-equivalent or female-equivalent gender. -/
theorem boys_girls_le_count_all_tables (l : List Record) (k y : String) :
    (((aggregate l).byRegion k).boys + ((aggregate l).byRegion k).girls
        ≤ ((aggregate l).byRegion k).count
      ∧ (((aggregate l).byRegion k).boys + ((aggregate l).byRegion k).girls
            = ((aggregate l).byRegion k).count
          ↔ ∀ r ∈ l, regionOf r = k →
              (is_male (genderOf r) = true ∨ is_female (genderOf r) = true)))
    ∧ (((aggregate l).byDistrict k).boys + ((aggregate l).byDistrict k).girls
        ≤ ((aggregate l).byDistrict k).count
      ∧ (((aggregate l).byDistrict k).boys + ((aggregate l).byDistrict k).girls
            = ((aggregate l).byDistrict k).count
          ↔ ∀ r ∈ l, districtOf r = k →
              (is_male (genderOf r) = true ∨ is_female (genderOf r) = true)))
    ∧ (((aggregate l).regionYearData k y).boys + ((aggregate l).regionYearData k y).girls
        ≤ ((aggregate l).regionYearData k y).count
      ∧ (((aggregate l).regionYearData k y).boys + ((aggregate l).regionYearData k y).girls
            = ((aggregate l).regionYearData k y).count
          ↔ ∀ r ∈ l, regionOf r = k ∧ yearOf r = y →
              (is_male (genderOf r) = true ∨ is_female (genderOf r) = true)))
    ∧ (((aggregate l).districtYearData k y).boys + ((aggregate l).districtYearData k y).girls
        ≤ ((aggregate l).districtYearData k y).count
      ∧ (((aggregate l).districtYearData k y).boys + ((aggregate l).districtYearData k y).girls
            = ((aggregate l).districtYearData k y).count
          ↔ ∀ r ∈ l, districtOf r = k ∧ yearOf r = y →
              (is_male (genderOf r) = true ∨ is_female (genderOf r) = true))) := by
  refine ⟨?_, ?_, ?_, ?_⟩
  · rw [aggregate, foldl_byRegion]
    simp only [AggState.init, Counter.zero]
    simp only [Nat.zero_add]
    exact counter_invariant l (inRegion k) _
      (fun r => by simp [inRegion, beq_iff_eq])
  · rw [aggregate, foldl_byDistrict]
    simp only [AggState.init, Counter.zero]
    simp only [Nat.zero_add]
    exact counter_invariant l (inDistrict k) _
      (fun r => by simp [inDistrict, beq_iff_eq])
  · rw [aggregate, foldl_regionYearData]
    simp only [AggState.init, Counter.zero]
    simp only [Nat.zero_add]
    exact counter_invariant l (inRegionYear k y) _
      (fun r => by simp [inRegionYear, beq_iff_eq, Bool.and_eq_true])
  · rw [aggregate, foldl_districtYearData]
    simp only [AggState.init, Counter.zero]
    simp only [Nat.zero_add]
    exact counter_invariant l (inDistrictYear k y) _
      (fun r => by simp [inDistrictYear, beq_iff_eq, Bool.and_eq_true])

/-- Summing a sub-population count over all year keys reached by a
dimension group recovers the group's total sub-population count. -/
lemma sum_year_counts_eq (l : List Record) (dim p : Record → Bool)
    (Y : Finset String) (hmem : ∀ a ∈ l, dim a = true → yearOf a ∈ Y) :
    (∑ y ∈ Y, l.countP (fun r => (dim r && (yearOf r == y)) && p r))
      = l.countP (fun r => dim r && p r) := by
  have hY : ∀ a ∈ l, (dim a && p a) = true → yearOf a ∈ Y := by
    intro a ha h
    exact hmem a ha (Bool.and_eq_true .. ▸ h).1
  have hkey := sum_countP_key l yearOf (fun r => dim r && p r) Y hY
  calc (∑ y ∈ Y, l.countP (fun r => (dim r && (yearOf r == y)) && p r))
      = ∑ y ∈ Y, l.countP (fun r => (dim r && p r) && (yearOf r == y)) := by
        refine Finset.sum_congr rfl (fun y _ => List.countP_congr (fun r _ => ?_))
        simp only [Bool.and_eq_true]
        tauto
    _ = l.countP (fun r => dim r && p r) := hkey

lemma mem_regionYearKeys (l : List Record) (k : String) :
    ∀ a ∈ l, inRegion k a = true → yearOf a ∈ regionYearKeys l k := by
  intro a ha h
  simp only [regionYearKeys, List.mem_toFinset]
  exact List.mem_map_of_mem _ (List.mem_filter.mpr ⟨ha, h⟩)

lemma mem_districtYearKeys (l : List Record) (k : String) :
    ∀ a ∈ l, inDistrict k a = true → yearOf a ∈ districtYearKeys l k := by
  intro a ha h
  simp only [districtYearKeys, List.mem_toFinset]
  exact List.mem_map_of_mem _ (List.mem_filter.mpr ⟨ha, h⟩)

/-- Claim C10: the two-key year tables are consistent with the single-key
tables: for every region, summing regionYearData[region][year] over the
years present for that region gives back byRegion[region], field by field,
and likewise for districts. -/
theorem year_tables_consistent_with_dimension_tables (l : List Record) (k : String) :
    ((∑ y ∈ regionYearKeys l k, ((aggregate l).regionYearData k y).count)
        = ((aggregate l).byRegion k).count
      ∧ (∑ y ∈ regionYearKeys l k, ((aggregate l).regionYearData k y).boys)
        = ((aggregate l).byRegion k).boys
      ∧ (∑ y ∈ regionYearKeys l k, ((aggregate l).regionYearData k y).girls)
        = ((aggregate l).byRegion k).girls)
    ∧ ((∑ y ∈ districtYearKeys l k, ((aggregate l).districtYearData k y).count)
        = ((aggregate l).byDistrict k).count
      ∧ (∑ y ∈ districtYearKeys l k, ((aggregate l).districtYearData k y).boys)
        = ((aggregate l).byDistrict k).boys
      ∧ (∑ y ∈ districtYearKeys l k, ((aggregate l).districtYearData k y).girls)
        = ((aggregate l).byDistrict k).girls) := by
  have hmr := mem_regionYearKeys l k
  have hmd := mem_districtYearKeys l k
  refine ⟨⟨?_, ?_, ?_⟩, ?_, ?_, ?_⟩
  · calc (∑ y ∈ regionYearKeys l k, ((aggregate l).regionYearData k y).count)
        = ∑ y ∈ regionYearKeys l k,
            l.countP (fun r => (inRegion k r && (yearOf r == y)) && (fun _ => true) r) := by
          refine Finset.sum_congr rfl (fun y _ => ?_)
          rw [aggregate, foldl_regionYearData]
          simp only [AggState.init, Counter.zero, Nat.zero_add]
          exact List.countP_congr (fun r _ => by simp [inRegionYear, inRegion])
      _ = l.countP (fun r => inRegion k r && (fun _ => true) r) :=
          sum_year_counts_eq l (inRegion k) _ _ hmr
      _ = ((aggregate l).byRegion k).count := by
          rw [aggregate, foldl_byRegion]
          simp only [AggState.init, Counter.zero, Nat.zero_add]
          exact List.countP_congr (fun r _ => by simp)
  · calc (∑ y ∈ regionYearKeys l k, ((aggregate l).regionYearData k y).boys)
        = ∑ y ∈ regionYearKeys l k,
            l.countP (fun r => (inRegion k r && (yearOf r == y)) && maleRec r) := by
          refine Finset.sum_congr rfl (fun y _ => ?_)
          rw [aggregate, foldl_regionYearData]
          simp only [AggState.init, Counter.zero, Nat.zero_add]
          exact List.countP_congr (fun r _ => by simp [inRegionYear, inRegion])
      _ = l.countP (fun r => inRegion k r && maleRec r) :=
          sum_year_counts_eq l (inRegion k) _ _ hmr
      _ = ((aggregate l).byRegion k).boys := by
          rw [aggregate, foldl_byRegion]
          simp only [AggState.init, Counter.zero, Nat.zero_add]
  · calc (∑ y ∈ regionYearKeys l k, ((aggregate l).regionYearData k y).girls)
        = ∑ y ∈ regionYearKeys l k,
            l.countP (fun r => (inRegion k r && (yearOf r == y)) && femaleRec r) := by
          refine Finset.sum_congr rfl (fun y _ => ?_)
          rw [aggregate, foldl_regionYearData]
          simp only [AggState.init, Counter.zero, Nat.zero_add]
          exact List.countP_congr (fun r _ => by simp [inRegionYear, inRegion])
      _ = l.countP (fun r => inRegion k r && femaleRec r) :=
          sum_year_counts_eq l (inRegion k) _ _ hmr
      _ = ((aggregate l).byRegion k).girls := by
          rw [aggregate, foldl_byRegion]
          simp only [AggState.init, Counter.zero, Nat.zero_add]
  · calc (∑ y ∈ districtYearKeys l k, ((aggregate l).districtYearData k y).count)
        = ∑ y ∈ districtYearKeys l k,
            l.countP (fun r => (inDistrict k r && (yearOf r == y)) && (fun _ => true) r) := by
          refine Finset.sum_congr rfl (fun y _ => ?_)
          rw [aggregate, foldl_districtYearData]
          simp only [AggState.init, Counter.zero, Nat.zero_add]
          exact List.countP_congr (fun r _ => by simp [inDistrictYear, inDistrict])
      _ = l.countP (fun r => inDistrict k r && (fun _ => true) r) :=
          sum_year_counts_eq l (inDistrict k) _ _ hmd
      _ = ((aggregate l).byDistrict k).count := by
          rw [aggregate, foldl_byDistrict]
          simp only [AggState.init, Counter.zero, Nat.zero_add]
          exact List.countP_congr (fun r _ => by simp)
  · calc (∑ y ∈ districtYearKeys l k, ((aggregate l).districtYearData k y).boys)
        = ∑ y ∈ districtYearKeys l k,
            l.countP (fun r => (inDistrict k r && (yearOf r == y)) && maleRec r) := by
          refine Finset.sum_congr rfl (fun y _ => ?_)
          rw [aggregate, foldl_districtYearData]
          simp only [AggState.init, Counter.zero, Nat.zero_add]
          exact List.countP_congr (fun r _ => by simp [inDistrictYear, inDistrict])
      _ = l.countP (fun r => inDistrict k r && maleRec r) :=
          sum_year_counts_eq l (inDistrict k) _ _ hmd
      _ = ((aggregate l).byDistrict k).boys := by
          rw [aggregate, foldl_byDistrict]
          simp only [AggState.init, Counter.zero, Nat.zero_add]
  · calc (∑ y ∈ districtYearKeys l k, ((aggregate l).districtYearData k y).girls)
        = ∑ y ∈ districtYearKeys l k,
            l.countP (fun r => (inDistrict k r && (yearOf r == y)) && femaleRec r) := by
          refine Finset.sum_congr rfl (fun y _ => ?_)
          rw [aggregate, foldl_districtYearData]
          simp only [AggState.init, Counter.zero, Nat.zero_add]
          exact List.countP_congr (fun r _ => by simp [inDistrictYear, inDistrict])
      _ = l.countP (fun r => inDistrict k r && femaleRec r) :=
          sum_year_counts_eq l (inDistrict k) _ _ hmd
      _ = ((aggregate l).byDistrict k).girls := by
          rw [aggregate, foldl_byDistrict]
          simp only [AggState.init, Counter.zero, Nat.zero_add]

/-- Witness for claim C3 at a concrete one-record input. -/
theorem boys_girls_le_count_all_tables_witness :
    ((aggregate [[(("Region" : String), Value.str "North"),
        ("Gender", Value.str "Male")]]).byRegion "North").boys
      + ((aggregate [[("Region", Value.str "North"),
          ("Gender", Value.str "Male")]]).byRegion "North").girls
      ≤ ((aggregate [[("Region", Value.str "North"),
          ("Gender", Value.str "Male")]]).byRegion "North").count :=
  (boys_girls_le_count_all_tables
    [[("Region", Value.str "North"), ("Gender", Value.str "Male")]] "North" "2023").1.1

/-- Witness for claim C10 at a concrete one-record input. -/
theorem year_tables_consistent_witness :
    (∑ y ∈ regionYearKeys [[(("Region" : String), Value.str "North"),
        ("Year", Value.int 2023)]] "North",
      ((aggregate [[("Region", Value.str "North"),
          ("Year", Value.int 2023)]]).regionYearData "North" y).count)
      = ((aggregate [[("Region", Value.str "North"),
          ("Year", Value.int 2023)]]).byRegion "North").count :=
  (year_tables_consistent_with_dimension_tables
    [[("Region", Value.str "North"), ("Year", Value.int 2023)]] "North").1.1

/-! ### Risk scorer bounds -/

lemma fireGroup_fst_nonneg (g : List (Bool × Int × String)) (acc : Int × List String)
    (hg : ∀ e ∈ g, 0 ≤ e.2.1) (hacc : 0 ≤ acc.1) : 0 ≤ (fireGroup acc g).1 := by
  induction g with
  | nil => simpa [fireGroup] using hacc
  | cons e rest ih =>
    obtain ⟨c, p, lb⟩ := e
    simp only [fireGroup]
    split
    · have hp := hg (c, p, lb) (List.mem_cons_self ..)
      simp only at hp ⊢
      omega
    · exact ih (fun x hx => hg x (List.mem_cons_of_mem _ hx))

lemma foldl_fireGroup_fst_nonneg (gs : List (List (Bool × Int × String)))
    (acc : Int × List String) (hgs : ∀ g ∈ gs, ∀ e ∈ g, 0 ≤ e.2.1) (hacc : 0 ≤ acc.1) :
    0 ≤ (gs.foldl fireGroup acc).1 := by
  induction gs generalizing acc with
  | nil => simpa using hacc
  | cons g rest ih =>
    rw [List.foldl_cons]
    exact ih _ (fun x hx => hgs x (List.mem_cons_of_mem _ hx))
      (fireGroup_fst_nonneg g acc (hgs g (List.mem_cons_self ..)) hacc)

lemma runRules_fst_nonneg (gs : List (List (Bool × Int × String)))
    (hgs : ∀ g ∈ gs, ∀ e ∈ g, 0 ≤ e.2.1) : 0 ≤ (runRules gs).1 :=
  foldl_fireGroup_fst_nonneg gs (0, []) hgs (by norm_num)

/-- Claim C1: each scorer returns a score in [0, 100], and the risk level
is a pure function of the score with the fixed inclusive thresholds:
50+ High, 25-49 Medium, 1-24 Low, 0 Minimal. -/
theorem risk_scores_in_range_and_level_thresholds :
    (∀ row : Record,
      (0 ≤ (calc_child_marriage_risk row).1 ∧ (calc_child_marriage_risk row).1 ≤ 100)
      ∧ (0 ≤ (calc_child_labour_risk row).1 ∧ (calc_child_labour_risk row).1 ≤ 100)
      ∧ (0 ≤ (calc_child_trafficking_risk row).1 ∧ (calc_child_trafficking_risk row).1 ≤ 100))
    ∧ (∀ score : Int,
        (50 ≤ score → get_risk_level score = "High")
        ∧ (25 ≤ score → score < 50 → get_risk_level score = "Medium")
        ∧ (0 < score → score < 25 → get_risk_level score = "Low")
        ∧ (score = 0 → get_risk_level score = "Minimal")) := by
  constructor
  · intro row
    refine ⟨⟨?_, ?_⟩, ⟨?_, ?_⟩, ⟨?_, ?_⟩⟩
    · unfold calc_child_marriage_risk
      dsimp only
      refine le_min (runRules_fst_nonneg _ ?_) (by norm_num)
      intro g hg e he
      fin_cases hg <;> fin_cases he <;> norm_num
    · unfold calc_child_marriage_risk
      dsimp only
      exact min_le_right _ _
    · unfold calc_child_labour_risk
      dsimp only
      refine le_min (runRules_fst_nonneg _ ?_) (by norm_num)
      intro g hg e he
      fin_cases hg <;> fin_cases he <;> norm_num
    · unfold calc_child_labour_risk
      dsimp only
      exact min_le_right _ _
    · unfold calc_child_trafficking_risk
      dsimp only
      refine le_min (runRules_fst_nonneg _ ?_) (by norm_num)
      intro g hg e he
      fin_cases hg <;> fin_cases he <;> norm_num
    · unfold calc_child_trafficking_risk
      dsimp only
      exact min_le_right _ _
  · intro s
    refine ⟨fun h => ?_, fun h1 h2 => ?_, fun h1 h2 => ?_, fun h => ?_⟩
    · unfold get_risk_level
      rw [if_pos (by omega)]
    · unfold get_risk_level
      rw [if_neg (by omega), if_pos (by omega)]
    · unfold get_risk_level
      rw [if_neg (by omega), if_neg (by omega), if_pos (by omega)]
    · subst h
      decide

/-- Witness for claim C1: the level thresholds applied at concrete
scores, and the bounds at a concrete record. -/
theorem risk_scores_in_range_and_level_thresholds_witness :
    (50 : Int) ≤ 70 ∧ get_risk_level 70 = "High"
    ∧ 0 ≤ (calc_child_marriage_risk []).1 :=
  ⟨by norm_num,
   (risk_scores_in_range_and_level_thresholds.2 70).1 (by norm_num),
   ((risk_scores_in_range_and_level_thresholds.1 []).1).1⟩

/-- Claim C8: the record with enrollment status "Drop Out" and
single-parent flag "Yes", all other scored fields absent, scores
20 + 15 = 35 on child-marriage risk, with factor labels in
rule-evaluation order, and maps to level "Medium". -/
theorem drop_out_single_parent_scores_35_medium :
    calc_child_marriage_risk
        [("Enrollment status", Value.str "Drop Out"),
         ("Whether the HH is headed by a single parent", Value.str "Yes")]
      = (35, ["Out of school", "Orphan/Single parent"])
    ∧ get_risk_level 35 = "Medium" := by
  constructor
  · decide
  · decide

/-! ### Year fallback (claim C5) -/

/-- Claim C5: a record with no year field falls back to "Periodicity"
before defaulting to "Unknown", and the year key is always stringified,
so the string "2023" and the number 2023 produce the same group key. -/
theorem year_fallback_periodicity_and_stringified :
    (∀ r : Record, r.get? "Year" = none →
        yearOf r = pyStr (r.getD "Periodicity" (Value.str "Unknown")))
    ∧ (∀ r : Record, r.get? "Year" = none → r.get? "Periodicity" = none →
        yearOf r = "Unknown")
    ∧ yearOf [("Year", Value.str "2023")] = yearOf [("Year", Value.int 2023)] := by
  refine ⟨?_, ?_, by decide⟩
  · intro r h
    simp [yearOf, Record.getD, h]
  · intro r h1 h2
    simp [yearOf, Record.getD, h1, h2, pyStr]

/-- Witness for claim C5: a record carrying only "Periodicity". -/
theorem year_fallback_periodicity_witness :
    Record.get? [(("Periodicity" : String), Value.int 7)] "Year" = none
    ∧ yearOf [("Periodicity", Value.int 7)]
        = pyStr (Record.getD [("Periodicity", Value.int 7)] "Periodicity" (Value.str "Unknown")) :=
  ⟨by decide, year_fallback_periodicity_and_stringified.1 _ (by decide)⟩

/-! ### Gender classification (claim C4) -/

/-- Counterexample to claim C4 as stated: the code's `safe_lower` does not
trim, so the gender value " male" (leading blank) is classified neither
male-equivalent nor female-equivalent, although the claimed
lowercase-and-trim normalization yields "male", which is in the
male-equivalent set. -/
theorem gender_not_trimmed_counterexample :
    specGenderNormalize (Value.str " male") = "male"
    ∧ is_male "male" = true
    ∧ genderOf [("Gender", Value.str " male")] = " male"
    ∧ is_male (genderOf [("Gender", Value.str " male")]) = false
    ∧ is_female (genderOf [("Gender", Value.str " male")]) = false := by
  refine ⟨by decide, by decide, by decide, by decide, by decide⟩

/-- Claim C4 as amended: gender classification lowercases the raw value
(without trimming); male-equivalent exactly on {male, m, boy},
female-equivalent exactly on {female, f, girl}; any other value, the
empty string included, increments only count. -/
theorem gender_classification_lowercase_only :
    (∀ r : Record, is_male (genderOf r) = true ↔
      (genderOf r = "male" ∨ genderOf r = "m" ∨ genderOf r = "boy"))
    ∧ (∀ r : Record, is_female (genderOf r) = true ↔
      (genderOf r = "female" ∨ genderOf r = "f" ∨ genderOf r = "girl"))
    ∧ (∀ v : Value, v ≠ Value.vnone → safe_lower v = pyLower (pyStr v))
    ∧ safe_lower Value.vnone = ""
    ∧ (∀ c : Counter, (c.bump false false).count = c.count + 1
        ∧ (c.bump false false).boys = c.boys ∧ (c.bump false false).girls = c.girls) := by
  refine ⟨?_, ?_, ?_, rfl, ?_⟩
  · intro r
    rw [is_male, List.contains_eq_any_beq]
    simp [beq_iff_eq]
  · intro r
    rw [is_female, List.contains_eq_any_beq]
    simp [beq_iff_eq]
  · intro v hv
    cases v with
    | str s => rfl
    | int n => rfl
    | vnone => exact absurd rfl hv
  · intro c
    simp [Counter.bump]

/-- Witness for the amended claim C4. -/
theorem gender_classification_lowercase_only_witness :
    Value.str "Male" ≠ Value.vnone
    ∧ safe_lower (Value.str "Male") = pyLower (pyStr (Value.str "Male")) :=
  ⟨by decide, gender_classification_lowercase_only.2.2.1 _ (by decide)⟩

/-! ### Region-district relation map (claim C6) -/

/-- Claim C6: the region-to-districts map is invariant under permutation
of the input records; a pair is recorded exactly when both region and
district resolve to non-"Unknown" values; serialization is sorted and
duplicate-free. -/
theorem regionDistrictMap_order_invariant (l l2 : List Record) (hp : l.Perm l2)
    (k d : String) :
    (aggregate l).regionDistrictMap k = (aggregate l2).regionDistrictMap k
    ∧ (d ∈ (aggregate l).regionDistrictMap k ↔
        ∃ r ∈ l, regionOf r = k ∧ districtOf r = d
          ∧ regionOf r ≠ "Unknown" ∧ districtOf r ≠ "Unknown")
    ∧ (serializeDistricts ((aggregate l).regionDistrictMap k)).Sorted (· ≤ ·)
    ∧ (serializeDistricts ((aggregate l).regionDistrictMap k)).Nodup := by
  have hchar : ∀ (lx : List Record) (dx : String),
      dx ∈ (aggregate lx).regionDistrictMap k ↔
        ∃ r ∈ lx, regionOf r = k ∧ districtOf r = dx
          ∧ regionOf r ≠ "Unknown" ∧ districtOf r ≠ "Unknown" := by
    intro lx dx
    rw [aggregate, foldl_relMap_mem]
    simp [AggState.init]
  refine ⟨?_, hchar l d, ?_, ?_⟩
  · ext x
    rw [hchar l x, hchar l2 x]
    constructor
    · rintro ⟨r, hr, hprop⟩
      exact ⟨r, hp.mem_iff.mp hr, hprop⟩
    · rintro ⟨r, hr, hprop⟩
      exact ⟨r, hp.mem_iff.mpr hr, hprop⟩
  · exact Finset.sort_sorted _ _
  · exact Finset.sort_nodup _ _

/-- Witness for claim C6: swapping two records leaves the map unchanged. -/
theorem regionDistrictMap_order_invariant_witness :
    ([[(("Region" : String), Value.str "North"), ("District", Value.str "D1")],
      [("Region", Value.str "South"), ("District", Value.str "D2")]] : List Record).Perm
      [[("Region", Value.str "South"), ("District", Value.str "D2")],
       [("Region", Value.str "North"), ("District", Value.str "D1")]]
    ∧ (aggregate [[("Region", Value.str "North"), ("District", Value.str "D1")],
        [("Region", Value.str "South"), ("District", Value.str "D2")]]).regionDistrictMap "North"
      = (aggregate [[("Region", Value.str "South"), ("District", Value.str "D2")],
         [("Region", Value.str "North"), ("District", Value.str "D1")]]).regionDistrictMap "North" :=
  ⟨List.Perm.swap _ _ _,
   (regionDistrictMap_order_invariant _ _ (List.Perm.swap _ _ _) "North" "D1").1⟩

/-! ### Merge-on-write (claim C7) -/

lemma setKey_same {α : Type} (doc : String → Option α) (k : String) (v : α) :
    setKey doc k v k = some v := by
  simp [setKey]

lemma setKey_other {α : Type} (doc : String → Option α) (k : String) (v : α)
    (x : String) (h : x ≠ k) : setKey doc k v x = doc x := by
  simp [setKey, Function.update_apply, h]

/-- Claim C7: persisting overwrites exactly the five aggregate top-level
keys, leaves every other key of the existing document unchanged, and a
failed load of the existing document aborts the step with no document
produced (so nothing is written). -/
theorem merge_on_write_overwrites_only_aggregate_keys (α : Type)
    (doc : String → Option α) (out : AggOutputs α) (k : String)
    (hk : k ∉ aggregateKeys) (e : String) :
    updateSummaryData (.error e) out = (.error e : Except String (String → Option α))
    ∧ updateSummaryData (.ok doc) out = .ok (applyAggregates doc out)
    ∧ applyAggregates doc out k = doc k
    ∧ applyAggregates doc out "byRegion" = some out.byRegion
    ∧ applyAggregates doc out "byDistrict" = some out.byDistrict
    ∧ applyAggregates doc out "regionYearData" = some out.regionYearData
    ∧ applyAggregates doc out "districtYearData" = some out.districtYearData
    ∧ applyAggregates doc out "regionDistrictMap" = some out.regionDistrictMap := by
  simp only [aggregateKeys, List.mem_cons, List.not_mem_nil, or_false, not_or] at hk
  obtain ⟨hk1, hk2, hk3, hk4, hk5⟩ := hk
  refine ⟨rfl, rfl, ?_, ?_, ?_, ?_, ?_, ?_⟩
  · rw [applyAggregates, setKey_other _ _ _ _ hk5, setKey_other _ _ _ _ hk4,
      setKey_other _ _ _ _ hk3, setKey_other _ _ _ _ hk2, setKey_other _ _ _ _ hk1]
  · rw [applyAggregates, setKey_other _ _ _ _ (by decide), setKey_other _ _ _ _ (by decide),
      setKey_other _ _ _ _ (by decide), setKey_other _ _ _ _ (by decide), setKey_same]
  · rw [applyAggregates, setKey_other _ _ _ _ (by decide), setKey_other _ _ _ _ (by decide),
      setKey_other _ _ _ _ (by decide), setKey_same]
  · rw [applyAggregates, setKey_other _ _ _ _ (by decide), setKey_other _ _ _ _ (by decide),
      setKey_same]
  · rw [applyAggregates, setKey_other _ _ _ _ (by decide), setKey_same]
  · rw [applyAggregates, setKey_same]

/-- Witness for claim C7: the unrelated key "totalRecords" is untouched. -/
theorem merge_on_write_overwrites_only_aggregate_keys_witness :
    ("totalRecords" ∉ aggregateKeys)
    ∧ applyAggregates (fun _ => (none : Option Nat)) ⟨1, 2, 3, 4, 5⟩ "totalRecords" = none :=
  ⟨by decide,
   (merge_on_write_overwrites_only_aggregate_keys Nat (fun _ => none) ⟨1, 2, 3, 4, 5⟩
     "totalRecords" (by decide) "e").2.2.1⟩

/-! ### NaN repair (claim C9) -/

/-- Claim C9 evaluation: NaN and Infinity are indeed replaced by null, but
"-Infinity" is turned into "-null", not "null": the Infinity substitution
runs first and consumes the "Infinity" part (there is a word boundary
between "-" and "I"), and the later "\b-Infinity\b" pattern can never
match (no word boundary before "-" after whitespace or a bracket), leaving
"-null", which is still invalid JSON. -/
theorem fix_content_minus_infinity_left_invalid :
    fix_content "[NaN]" = "[null]"
    ∧ fix_content "[Infinity]" = "[null]"
    ∧ fix_content "[-Infinity]" = "[-null]"
    ∧ fix_content "[-Infinity]" ≠ "[null]" := by
  refine ⟨by decide, by decide, by decide, by decide⟩

end CryData
